import Mathlib

/-!
Verification of the adcreativeflow-db-sync engine: a Cloudflare Worker that
mirrors BigQuery tables into Supabase and ingests Google Sheets into BigQuery.
Each definition below is a shallow embedding of one function of the TypeScript
source (file and symbol named in its doc comment); the theorems settle the
specification's claims about those functions.
-/

/-- ASCII lowercase of one character, the case relevant to the identifiers the
engine compares with JavaScript's `toLowerCase()`. -/
def lowerChar (c : Char) : Char :=
  if 65 ≤ c.toNat ∧ c.toNat ≤ 90 then Char.ofNat (c.toNat + 32) else c

/-- Embedding of `String.prototype.toLowerCase()` as the engine uses it on
ASCII column names and type tags. -/
def jsToLower (s : String) : String :=
  String.mk (s.data.map lowerChar)

/-- One column of a source or sink schema (src/sync/schema.ts, `SchemaField`):
a name and a BigQuery type tag such as INTEGER, FLOAT, DATE or TIMESTAMP. -/
structure SchemaField where
  name : String
  type : String
deriving Repr, DecidableEq

/-- Result of schema-drift detection (`detectSchemaChanges`). -/
structure SchemaChanges where
  columnsToAdd : List SchemaField
  columnsToDrop : List String
deriving Repr, DecidableEq

/-- Embedding of `detectSchemaChanges(bqFields, supabaseFields)`
(src/sync/handler.test.ts embedded schema module, lines 125-142): a source
column is added when no sink column has the same lowercased name; a sink
column is dropped when its lowercased name is not `synced_at` and no source
column has the same lowercased name. -/
def detectSchemaChanges (bqFields supabaseFields : List SchemaField) : SchemaChanges :=
  { columnsToAdd := bqFields.filter fun bq =>
      !(supabaseFields.any fun sb => jsToLower sb.name == jsToLower bq.name)
    columnsToDrop :=
      ((supabaseFields.filter fun sb => jsToLower sb.name != "synced_at").filter fun sb =>
        !(bqFields.any fun bq => jsToLower bq.name == jsToLower sb.name)).map
        fun sb => sb.name }

/-- Two field lists whose names agree up to lowercasing are indistinguishable
to the `any` membership probe used by `detectSchemaChanges`. -/
theorem any_lower_eq_of_forall₂ {bq bq2 : List SchemaField}
    (h : List.Forall₂ (fun f g : SchemaField => jsToLower f.name = jsToLower g.name) bq bq2)
    (s : String) :
    (bq.any fun f => jsToLower f.name == s) = (bq2.any fun g => jsToLower g.name == s) := by
  induction h with
  | nil => rfl
  | cons hfg _ ih =>
      simp only [List.any_cons, ih]
      rw [hfg]

/-- C5. `detectSchemaChanges` compares column names case-insensitively and
never reports the engine-owned `synced_at` column (in any letter case) in
`columnsToDrop`: every dropped name lowercases to something other than
`synced_at`, and replacing the source fields by any case-variant of their
names leaves the drop list unchanged. -/
theorem detectSchemaChanges_spec (bq bq2 sb : List SchemaField)
    (h : List.Forall₂ (fun f g : SchemaField => jsToLower f.name = jsToLower g.name) bq bq2) :
    (∀ n ∈ (detectSchemaChanges bq sb).columnsToDrop, jsToLower n ≠ "synced_at") ∧
    (detectSchemaChanges bq sb).columnsToDrop = (detectSchemaChanges bq2 sb).columnsToDrop := by
  constructor
  · intro n hn
    simp only [detectSchemaChanges, List.mem_map, List.mem_filter] at hn
    obtain ⟨f, ⟨⟨_, hne⟩, _⟩, rfl⟩ := hn
    simpa using hne
  · simp only [detectSchemaChanges]
    congr 1
    apply List.filter_congr
    intro f _
    rw [any_lower_eq_of_forall₂ h]

/-- Concrete run of C5: a sink with `Synced_At` and `old_col` against a source
that (up to case) only has `id`; `Synced_At` is protected, `old_col` dropped,
and the case-variant source `ID` behaves as `id`. -/
theorem detectSchemaChanges_spec_witness :
    (∀ n ∈ (detectSchemaChanges [⟨"ID", "INTEGER"⟩]
        [⟨"id", "BIGINT"⟩, ⟨"Synced_At", "TIMESTAMPTZ"⟩, ⟨"old_col", "TEXT"⟩]).columnsToDrop,
      jsToLower n ≠ "synced_at") ∧
    (detectSchemaChanges [⟨"ID", "INTEGER"⟩]
        [⟨"id", "BIGINT"⟩, ⟨"Synced_At", "TIMESTAMPTZ"⟩, ⟨"old_col", "TEXT"⟩]).columnsToDrop =
      (detectSchemaChanges [⟨"id", "INTEGER"⟩]
        [⟨"id", "BIGINT"⟩, ⟨"Synced_At", "TIMESTAMPTZ"⟩, ⟨"old_col", "TEXT"⟩]).columnsToDrop :=
  detectSchemaChanges_spec _ _ _ (List.Forall₂.cons (by decide) List.Forall₂.nil)

/-- Shape of the JSON body and status answered by the admin surface's login
route (src/index.ts, `POST /api/auth`). -/
structure AuthResponse where
  status : Nat
  success : Bool
  token : Option String
deriving Repr, DecidableEq

/-- Embedding of the `POST /api/auth` handler (src/index.ts lines 35-41): the
body's `key` is compared to the configured `SYNC_API_KEY`; on a match the 200
body is `{success: true, token: SYNC_API_KEY}`, otherwise a 401. -/
def postApiAuth (syncApiKey key : String) : AuthResponse :=
  if key == syncApiKey then { status := 200, success := true, token := some syncApiKey }
  else { status := 401, success := false, token := none }

/-- C10. When the presented key equals the configured secret, the login route
answers 200 with a `token` field equal to the secret itself: the bearer secret
guarding the admin surface is echoed back verbatim. -/
theorem postApiAuth_echoes_secret (secret key : String) (h : key = secret) :
    (postApiAuth secret key).status = 200 ∧
    (postApiAuth secret key).token = some secret := by
  subst h
  simp [postApiAuth]

/-- Concrete run of C10 at a sample secret. -/
theorem postApiAuth_echoes_secret_witness :
    (postApiAuth "hunter2" "hunter2").status = 200 ∧
    (postApiAuth "hunter2" "hunter2").token = some "hunter2" :=
  postApiAuth_echoes_secret "hunter2" "hunter2" rfl

/-- A JavaScript value as produced by the BigQuery row parser: `null`, a
string, a safe integer, or the result of `parseFloat` on the wire string
(kept symbolically, since only which branch applies is at stake). -/
inductive JSVal where
  | null
  | str (s : String)
  | int (n : Int)
  | floatOf (s : String)
deriving Repr, DecidableEq

/-- `Number.MAX_SAFE_INTEGER`. -/
def MAX_SAFE_INTEGER : Int := 9007199254740991

/-- `Number.MIN_SAFE_INTEGER`. -/
def MIN_SAFE_INTEGER : Int := -9007199254740991

/-- Value of a list of decimal digit characters. -/
def decNat (cs : List Char) : Nat :=
  cs.foldl (fun acc c => acc * 10 + (c.toNat - 48)) 0

/-- Embedding of `BigInt(val)` on the decimal integer strings BigQuery wires
for INTEGER cells: optional leading minus, then digits. -/
def bigIntOf (s : String) : Int :=
  match s.data with
  | '-' :: rest => -(decNat rest : Int)
  | cs => (decNat cs : Int)

/-- The INTEGER branch guard of `parseRows` (src/bigquery/client.ts). -/
def isIntegerType (t : String) : Bool :=
  t == "INTEGER" || t == "INT64"

/-- The FLOAT branch guard of `parseRows` (src/bigquery/client.ts). -/
def isFloatType (t : String) : Bool :=
  t == "FLOAT" || t == "FLOAT64"

/-- Embedding of the per-cell mapping of `BigQueryClient.parseRows`
(src/bigquery/client.ts lines 49-83): null propagates; a column in the
force-string set keeps its wire string; an INTEGER/INT64 cell is kept as a
string when `BigInt(val)` leaves the safe-integer range and converted with
`parseInt` otherwise; a FLOAT/FLOAT64 cell goes through `parseFloat`; every
other cell passes through unchanged. -/
def parseCell (forceStringFields : List String) (field : SchemaField)
    (val : Option String) : JSVal :=
  match val with
  | none => JSVal.null
  | some v =>
    if forceStringFields.contains field.name then JSVal.str v
    else if isIntegerType field.type then
      let n := bigIntOf v
      if MAX_SAFE_INTEGER < n ∨ n < MIN_SAFE_INTEGER then JSVal.str v
      else JSVal.int n
    else if isFloatType field.type then JSVal.floatOf v
    else JSVal.str v

/-- Embedding of one row of `BigQueryClient.parseRows`: each schema field is
paired with its cell and mapped through the per-cell rule. -/
def parseRows (forceStringFields : List String) (fields : List SchemaField)
    (row : List (Option String)) : List (String × JSVal) :=
  (fields.zip row).map fun fc => (fc.1.name, parseCell forceStringFields fc.1 fc.2)

/-- C4. The row parser's per-cell behaviour, case by case: null cells yield
null; force-string columns keep the wire string (whatever the declared type);
integer cells within the safe range become numbers and out-of-range integer
cells stay strings; float cells are handed to `parseFloat`; all remaining
cells pass through unchanged. -/
theorem parseRows_cell_spec (fs : List String) (f : SchemaField) :
    parseCell fs f none = JSVal.null ∧
    (∀ v, fs.contains f.name = true → parseCell fs f (some v) = JSVal.str v) ∧
    (∀ v, fs.contains f.name = false → isIntegerType f.type = true →
      (MIN_SAFE_INTEGER ≤ bigIntOf v → bigIntOf v ≤ MAX_SAFE_INTEGER →
        parseCell fs f (some v) = JSVal.int (bigIntOf v)) ∧
      (MAX_SAFE_INTEGER < bigIntOf v ∨ bigIntOf v < MIN_SAFE_INTEGER →
        parseCell fs f (some v) = JSVal.str v)) ∧
    (∀ v, fs.contains f.name = false → isIntegerType f.type = false →
      isFloatType f.type = true → parseCell fs f (some v) = JSVal.floatOf v) ∧
    (∀ v, fs.contains f.name = false → isIntegerType f.type = false →
      isFloatType f.type = false → parseCell fs f (some v) = JSVal.str v) := by
  refine ⟨rfl, ?_, ?_, ?_, ?_⟩
  · intro v hmem
    have hm : f.name ∈ fs := by simpa using hmem
    simp [parseCell, hm]
  · intro v hmem hint
    have hm : f.name ∉ fs := by simpa using hmem
    constructor
    · intro hlo hhi
      have hnot : ¬(MAX_SAFE_INTEGER < bigIntOf v ∨ bigIntOf v < MIN_SAFE_INTEGER) := by
        push_neg
        exact ⟨hhi, hlo⟩
      simp [parseCell, hm, hint, hnot]
    · intro hout
      simp [parseCell, hm, hint, hout]
  · intro v hmem hint hfloat
    have hm : f.name ∉ fs := by simpa using hmem
    simp [parseCell, hm, hint, hfloat]
  · intro v hmem hint hfloat
    have hm : f.name ∉ fs := by simpa using hmem
    simp [parseCell, hm, hint, hfloat]

/-- Concrete run of C4: the value one past the safe range stays a string,
the same digits under a force-string column stay a string, and a small
integer converts. -/
theorem parseRows_cell_spec_witness :
    parseCell [] ⟨"id", "INTEGER"⟩ (some "9007199254740992") =
      JSVal.str "9007199254740992" ∧
    parseCell ["id"] ⟨"id", "INTEGER"⟩ (some "42") = JSVal.str "42" ∧
    parseCell [] ⟨"id", "INTEGER"⟩ (some "42") = JSVal.int 42 := by
  refine ⟨?_, ?_, ?_⟩
  · exact ((parseRows_cell_spec [] ⟨"id", "INTEGER"⟩).2.2.1 "9007199254740992"
      (by decide) (by decide)).2 (by decide)
  · exact (parseRows_cell_spec ["id"] ⟨"id", "INTEGER"⟩).2.1 "42" (by decide)
  · exact ((parseRows_cell_spec [] ⟨"id", "INTEGER"⟩).2.2.1 "42"
      (by decide) (by decide)).1 (by decide) (by decide)


/-- A metadata value handed to the Run Logger: a string, a value whose JSON
serialization throws (a circular structure), or any other serializable value. -/
inductive MVal where
  | str (s : String)
  | circular
  | other
deriving Repr, DecidableEq

/-- Whether `needle` is a prefix of `hay`, on character lists. -/
def charsPfx : List Char → List Char → Bool
  | [], _ => true
  | _ :: _, [] => false
  | a :: as, b :: bs => a == b && charsPfx as bs

/-- Whether `needle` occurs inside `hay`, on character lists: the embedding of
`String.prototype.includes`. -/
def charsSub (needle : List Char) : List Char → Bool
  | [] => charsPfx needle []
  | c :: t => charsPfx needle (c :: t) || charsSub needle t

/-- Embedding of `hay.includes(needle)`. -/
def jsIncludes (hay needle : String) : Bool :=
  charsSub needle.data hay.data

/-- The sensitive-key fragments of `Logger.sanitize` (src/logger/index.ts
line 53). -/
def sensitiveKeyWords : List String :=
  ["key", "token", "password", "secret", "credential", "auth"]

/-- Whether a metadata key is redacted: its lowercased form contains one of
the sensitive fragments (src/logger/index.ts line 57). -/
def isSensitiveKey (k : String) : Bool :=
  sensitiveKeyWords.any fun s => jsIncludes (jsToLower k) s

/-- Embedding of `v.substring(0, 1000) + '...(truncated)'`. -/
def truncatedStr (s : String) : String :=
  String.mk (s.data.take 1000 ++ ("...(truncated)").data)

/-- The per-entry step of `Logger.sanitize` (src/logger/index.ts lines 56-64):
redact sensitive keys, truncate long strings, keep everything else. -/
def sanitizeEntry (kv : String × MVal) : String × MVal :=
  if isSensitiveKey kv.1 then (kv.1, MVal.str "***REDACTED***")
  else match kv.2 with
    | MVal.str s => if 1000 < s.length then (kv.1, MVal.str (truncatedStr s)) else kv
    | _ => kv

/-- Embedding of `Logger.sanitize` (src/logger/index.ts lines 50-73): each
entry is sanitized; if the result still fails `JSON.stringify` (a circular
value survived under a non-sensitive key) the whole map collapses to one
error marker. -/
def sanitize (m : List (String × MVal)) : List (String × MVal) :=
  let sanitized := m.map sanitizeEntry
  if sanitized.any fun kv => kv.2 == MVal.circular then
    [("error", MVal.str "[Circular reference detected]")]
  else sanitized

/-- A log entry as `Logger.log` builds it (src/logger/index.ts lines 75-120). -/
structure LogEntry where
  level : String
  phase : String
  message : String
  metadata : List (String × MVal)
deriving Repr, DecidableEq

/-- Embedding of `Logger.log`'s entry construction: every produced entry
carries `sanitize(metadata)`. -/
def logEntry (level phase message : String) (metadata : List (String × MVal)) : LogEntry :=
  { level := level, phase := phase, message := message, metadata := sanitize metadata }

/-- Sanitizing an entry keeps its key. -/
theorem sanitizeEntry_fst (kv : String × MVal) : (sanitizeEntry kv).1 = kv.1 := by
  obtain ⟨k, v⟩ := kv
  cases v <;> simp only [sanitizeEntry] <;> split <;> try rfl
  split <;> rfl

/-- A sensitive key's value is always the placeholder after sanitizing. -/
theorem sanitizeEntry_sensitive (kv : String × MVal) (h : isSensitiveKey kv.1 = true) :
    (sanitizeEntry kv).2 = MVal.str "***REDACTED***" := by
  simp [sanitizeEntry, h]

/-- Every string a sanitized entry carries is short or a marked truncation. -/
theorem sanitizeEntry_str_len (kv : String × MVal) (s : String)
    (h : (sanitizeEntry kv).2 = MVal.str s) :
    s.length ≤ 1000 ∨ (s.length = 1014 ∧ s.data.drop 1000 = ("...(truncated)").data) := by
  obtain ⟨k, v⟩ := kv
  by_cases hk : isSensitiveKey k = true
  · rw [sanitizeEntry_sensitive _ hk] at h
    left
    rw [show s = "***REDACTED***" from by injection h.symm]
    decide
  · simp only [sanitizeEntry, hk, Bool.false_eq_true, if_false] at h
    cases v with
    | str t =>
        by_cases hlen : 1000 < t.length
        · simp only [if_pos hlen] at h
          have hst : s = truncatedStr t := by injection h.symm
          subst hst
          right
          have hdl : t.length = t.data.length := rfl
          have htake : (t.data.take 1000).length = 1000 := by
            simp only [List.length_take]
            omega
          have hlen14 : (truncatedStr t).length = 1014 := by
            show (t.data.take 1000 ++ ("...(truncated)").data).length = 1014
            rw [List.length_append, htake]
            rfl
          refine ⟨hlen14, ?_⟩
          show (t.data.take 1000 ++ ("...(truncated)").data).drop 1000 = _
          have hdrop := List.drop_left (t.data.take 1000) ("...(truncated)").data
          rw [htake] at hdrop
          exact hdrop
        · simp only [if_neg hlen] at h
          left
          have hst : t = s := by injection h
          subst hst
          omega
    | circular => exact absurd h (by simp)
    | other => exact absurd h (by simp)

/-- A circular value under a non-sensitive key survives entry sanitizing. -/
theorem sanitizeEntry_circular (kv : String × MVal) (h1 : isSensitiveKey kv.1 = false)
    (h2 : kv.2 = MVal.circular) : sanitizeEntry kv = (kv.1, MVal.circular) := by
  obtain ⟨k, v⟩ := kv
  simp only at h2
  subst h2
  simp [sanitizeEntry, h1]

/-- C8. Redaction: in every entry the Run Logger produces, each metadata field
whose key contains one of key/token/password/secret/credential/auth
(case-insensitively) carries exactly the redaction placeholder; every string
value is at most 1000 characters long or is a truncation ending in the
ellipsis marker; and a metadata map with a circular value under a
non-sensitive key collapses to the single error marker. -/
theorem logger_sanitize_spec (level phase msg : String) (m : List (String × MVal)) :
    (∀ p ∈ (logEntry level phase msg m).metadata,
      isSensitiveKey p.1 = true → p.2 = MVal.str "***REDACTED***") ∧
    (∀ p ∈ (logEntry level phase msg m).metadata, ∀ s, p.2 = MVal.str s →
      s.length ≤ 1000 ∨ (s.length = 1014 ∧ s.data.drop 1000 = ("...(truncated)").data)) ∧
    ((m.any fun kv => !isSensitiveKey kv.1 && kv.2 == MVal.circular) = true →
      (logEntry level phase msg m).metadata =
        [("error", MVal.str "[Circular reference detected]")]) := by
  refine ⟨?_, ?_, ?_⟩
  · intro p hp hsens
    simp only [logEntry, sanitize] at hp
    split at hp
    · simp only [List.mem_singleton] at hp
      subst hp
      exact absurd hsens (by decide)
    · simp only [List.mem_map] at hp
      obtain ⟨kv, _, rfl⟩ := hp
      rw [sanitizeEntry_fst] at hsens
      exact sanitizeEntry_sensitive kv hsens
  · intro p hp s hs
    simp only [logEntry, sanitize] at hp
    split at hp
    · simp only [List.mem_singleton] at hp
      subst hp
      simp only at hs
      left
      rw [show s = "[Circular reference detected]" from by injection hs.symm]
      decide
    · simp only [List.mem_map] at hp
      obtain ⟨kv, _, rfl⟩ := hp
      exact sanitizeEntry_str_len kv s hs
  · intro hany
    simp only [List.any_eq_true, Bool.and_eq_true, Bool.not_eq_true', beq_iff_eq] at hany
    obtain ⟨kv, hkvmem, hknot, hkcirc⟩ := hany
    simp only [logEntry, sanitize]
    rw [if_pos]
    simp only [List.any_eq_true, List.mem_map]
    refine ⟨(kv.1, MVal.circular), ⟨kv, hkvmem, sanitizeEntry_circular kv hknot hkcirc⟩, rfl⟩

/-- Concrete run of C8: an `apiKey` field is redacted even next to ordinary
fields. -/
theorem logger_sanitize_spec_witness :
    ∀ p ∈ (logEntry "INFO" "SYNC_START" "m"
        [("apiKey", MVal.str "abc"), ("rows", MVal.other)]).metadata,
      isSensitiveKey p.1 = true → p.2 = MVal.str "***REDACTED***" :=
  (logger_sanitize_spec "INFO" "SYNC_START" "m"
    [("apiKey", MVal.str "abc"), ("rows", MVal.other)]).1

/-- Whether `SheetsClient.fetchWithRetry` retries a response: status 429 or
any 5xx (src/sheets/client.ts line 14). -/
def retryableStatus (s : Nat) : Bool :=
  s == 429 || (decide (500 ≤ s) && decide (s < 600))

/-- The back-off the retry loop sleeps before re-attempting, in milliseconds:
`Math.pow(2, i) * 1000 + Math.random() * 1000` (src/sheets/client.ts line 15),
with `jitter` standing for the `Math.random()` sample in `[0, 1)`. -/
def retryDelayMs (i : Nat) (jitter : ℚ) : ℚ :=
  2 ^ i * 1000 + jitter * 1000

/-- The retry loop of `fetchWithRetry` with `fuel` attempts left: attempt `i`
returns its response unless the status is retryable, in which case the next
attempt runs; exhausted fuel is the thrown failure (`none`). -/
def retryFrom (resp : Nat → Nat) (i : Nat) : Nat → Option Nat
  | 0 => none
  | fuel + 1 =>
    if retryableStatus (resp i) then retryFrom resp (i + 1) fuel else some (resp i)

/-- Embedding of `SheetsClient.fetchWithRetry` (src/sheets/client.ts lines
10-24) over the sequence of statuses the endpoint would answer: at most
`retries = 3` attempts. -/
def fetchWithRetry (resp : Nat → Nat) : Option Nat :=
  retryFrom resp 0 3

/-- C9 counterexample: the code's jitter is `Math.random() * 1000` ADDED to
the base delay, so a first-retry back-off of 1900 ms occurs, outside the
claimed 1s ± 500 ms band. -/
theorem retry_jitter_counterexample :
    (0 : ℚ) ≤ 9 / 10 ∧ (9 : ℚ) / 10 < 1 ∧ retryDelayMs 0 (9 / 10) = 1900 ∧
    ¬(2 ^ 0 * 1000 - 500 ≤ retryDelayMs 0 (9 / 10) ∧
      retryDelayMs 0 (9 / 10) ≤ 2 ^ 0 * 1000 + 500) := by
  norm_num [retryDelayMs]

/-- C9 (amended). A 429 or 5xx response is retried with exponential back-off
of 1s, 2s, 4s plus a uniform jitter in `[0, 1000)` ms added on top; at most
three attempts are made in total, after which the read fails; any other
status is returned immediately on its own attempt. -/
theorem fetchWithRetry_spec (resp : Nat → Nat) :
    (retryableStatus (resp 0) = false → fetchWithRetry resp = some (resp 0)) ∧
    ((∀ i < 3, retryableStatus (resp i) = true) → fetchWithRetry resp = none) ∧
    (∀ (i : Nat) (j : ℚ), 0 ≤ j → j < 1 →
      2 ^ i * 1000 ≤ retryDelayMs i j ∧ retryDelayMs i j < 2 ^ i * 1000 + 1000) := by
  refine ⟨?_, ?_, ?_⟩
  · intro h
    simp [fetchWithRetry, retryFrom, h]
  · intro h
    simp [fetchWithRetry, retryFrom, h 0 (by norm_num), h 1 (by norm_num), h 2 (by norm_num)]
  · intro i j hj0 hj1
    constructor
    · simp only [retryDelayMs]
      nlinarith
    · simp only [retryDelayMs]
      nlinarith

/-- Concrete run of C9: a 404 is returned on the first attempt, a sequence of
503s exhausts the three attempts. -/
theorem fetchWithRetry_spec_witness :
    fetchWithRetry (fun _ => 404) = some 404 ∧
    fetchWithRetry (fun _ => 503) = none :=
  ⟨(fetchWithRetry_spec fun _ => 404).1 (by decide),
   (fetchWithRetry_spec fun _ => 503).2.1 fun _ _ => by decide⟩

/-- A stored job as the scheduled dispatcher sees it (src/index.ts,
`scheduled`): enabled flag, whether its `type` is `sheets-to-bq`, and its
configured `cronSchedule`. -/
structure Job where
  id : String
  enabled : Bool
  isSheetsJob : Bool
  cronSchedule : Option String
deriving Repr, DecidableEq

/-- JavaScript whitespace trim on character lists. -/
def trimChars (l : List Char) : List Char :=
  ((l.dropWhile fun c => c == ' ' || c == '\t' || c == '\n' || c == '\r').reverse.dropWhile
    fun c => c == ' ' || c == '\t' || c == '\n' || c == '\r').reverse

/-- Embedding of `String.prototype.trim()`. -/
def jsTrim (s : String) : String :=
  String.mk (trimChars s.data)

/-- Embedding of `matchesCron(cronExpression, eventCron)` (src/cron/queue.ts
lines 152-155): false when either side is empty, otherwise exact comparison
of the trimmed strings. -/
def matchesCron (cronExpression eventCron : String) : Bool :=
  if cronExpression == "" || eventCron == "" then false
  else jsTrim cronExpression == jsTrim eventCron

/-- Embedding of the `scheduled` cron dispatcher (src/index.ts lines 339-360):
the jobs it triggers (each via a batch-1 `runJobWithAutoContinuation`) are the
enabled ones selected by job type against two hard-coded expressions —
sheets-to-bq jobs when the firing expression is `30 */6 * * *`, all other jobs
when it is `0 */6 * * *`, and every enabled job when the firing expression is
falsy. The job's own `cronSchedule` is never consulted. -/
def scheduledTriggers (jobs : List Job) (cron : String) : List Job :=
  jobs.filter fun j => j.enabled &&
    ((cron == "30 */6 * * *" && j.isSheetsJob) ||
     (cron == "0 */6 * * *" && !j.isSheetsJob) ||
     cron == "")

/-- C7 counterexample: an enabled warehouse-to-sink job whose `cronSchedule`
is `0 0 * * *` does NOT match the firing expression `0 */6 * * *` under
`matchesCron`, yet the dispatcher triggers it. -/
theorem scheduled_ignores_cronSchedule_counterexample :
    scheduledTriggers [⟨"j1", true, false, some "0 0 * * *"⟩] "0 */6 * * *" =
      [⟨"j1", true, false, some "0 0 * * *"⟩] ∧
    matchesCron "0 0 * * *" "0 */6 * * *" = false := by
  constructor
  · rfl
  · decide

/-- C7 (amended). On a cron firing the dispatcher triggers exactly the
enabled jobs selected by job type against the two hard-coded expressions
(sheets jobs for `30 */6 * * *`, other jobs for `0 */6 * * *`, everything for
a falsy firing expression); the configured `cronSchedule` plays no part. The
exact-string comparison `matchesCron` exists but is what the dispatcher does
not use: on nonempty inputs it is equality of the trimmed strings. -/
theorem scheduled_dispatch_spec (jobs : List Job) (cron : String) (j : Job) :
    (j ∈ scheduledTriggers jobs cron ↔
      j ∈ jobs ∧ j.enabled = true ∧
        ((cron = "30 */6 * * *" ∧ j.isSheetsJob = true) ∨
         (cron = "0 */6 * * *" ∧ j.isSheetsJob = false) ∨ cron = "")) ∧
    (∀ a b : String, a ≠ "" → b ≠ "" → matchesCron a b = (jsTrim a == jsTrim b)) := by
  constructor
  · simp only [scheduledTriggers, List.mem_filter, Bool.and_eq_true, Bool.or_eq_true,
      beq_iff_eq, Bool.not_eq_true']
    tauto
  · intro a b ha hb
    have ha2 : (a == "") = false := by simpa using ha
    have hb2 : (b == "") = false := by simpa using hb
    simp [matchesCron, ha2, hb2]

/-- Concrete run of C7 (amended): a sheets job fires on the sheets cron, and
`matchesCron` on two nonempty expressions is trimmed equality. -/
theorem scheduled_dispatch_spec_witness :
    ((⟨"a", true, true, none⟩ : Job) ∈
        scheduledTriggers [⟨"a", true, true, none⟩] "30 */6 * * *" ↔
      (⟨"a", true, true, none⟩ : Job) ∈ [(⟨"a", true, true, none⟩ : Job)] ∧
        (⟨"a", true, true, none⟩ : Job).enabled = true ∧
        (("30 */6 * * *" = "30 */6 * * *" ∧
            (⟨"a", true, true, none⟩ : Job).isSheetsJob = true) ∨
         ("30 */6 * * *" = "0 */6 * * *" ∧
            (⟨"a", true, true, none⟩ : Job).isSheetsJob = false) ∨
         "30 */6 * * *" = "")) ∧
    matchesCron "0 0 * * *" "0 0 * * *" = (jsTrim "0 0 * * *" == jsTrim "0 0 * * *") := by
  have h := scheduled_dispatch_spec [⟨"a", true, true, none⟩] "30 */6 * * *"
    ⟨"a", true, true, none⟩
  exact ⟨h.1, h.2 "0 0 * * *" "0 0 * * *" (by decide) (by decide)⟩

/-- Embedding of the incremental-filter construction of `handleSync`
(src/sync/handler.ts lines 407-419): with a truthy last-sync value and a
configured incremental column, the column's type is looked up
case-insensitively in the BigQuery schema and the comparison operator is
strict `>` exactly when that type is TIMESTAMP, `>=` otherwise; the filter is
`WHERE <col> <op> '<lastSyncDate>'`. Otherwise the filter is empty. -/
def buildIncrementalFilter (bqFields : List SchemaField)
    (incrementalColumn lastSyncDate : Option String) : String :=
  match lastSyncDate, incrementalColumn with
  | some d, some col =>
    if d == "" then ""
    else
      let incrementalField := bqFields.find? fun f => jsToLower f.name == jsToLower col
      let op := match incrementalField with
        | some f => if f.type == "TIMESTAMP" then ">" else ">="
        | none => ">="
      "WHERE " ++ col ++ " " ++ op ++ " '" ++ d ++ "'"
  | _, _ => ""

/-- C1 counterexample: for a DATE-typed incremental column the SQL filter
uses `>=`, not the claimed strict `>`. -/
theorem strict_filter_counterexample :
    buildIncrementalFilter [⟨"d", "DATE"⟩] (some "d") (some "2024-01-01") =
      "WHERE d >= '2024-01-01'" ∧
    buildIncrementalFilter [⟨"d", "DATE"⟩] (some "d") (some "2024-01-01") ≠
      "WHERE d > '2024-01-01'" := by
  constructor
  · rfl
  · decide

/-- C1 (amended). With a non-empty last-sync value and an incremental column
found in the source schema, the filter's comparison is strict `>` exactly for
a TIMESTAMP-typed column and `>=` for every other type (DATE included); the
carried-cursor machinery the claim appeals to does not exist in this handler. -/
theorem incremental_filter_spec (bqFields : List SchemaField) (col d : String)
    (hd : d ≠ "") (f : SchemaField)
    (hf : (bqFields.find? fun g => jsToLower g.name == jsToLower col) = some f) :
    (f.type = "TIMESTAMP" →
      buildIncrementalFilter bqFields (some col) (some d) =
        "WHERE " ++ col ++ " " ++ ">" ++ " '" ++ d ++ "'") ∧
    (f.type ≠ "TIMESTAMP" →
      buildIncrementalFilter bqFields (some col) (some d) =
        "WHERE " ++ col ++ " " ++ ">=" ++ " '" ++ d ++ "'") := by
  have hde : (d == "") = false := by simpa using hd
  constructor
  · intro ht
    simp [buildIncrementalFilter, hde, hf, ht]
  · intro ht
    have ht2 : (f.type == "TIMESTAMP") = false := by simpa using ht
    simp [buildIncrementalFilter, hde, hf, ht2]

/-- Concrete run of C1 (amended): a TIMESTAMP column gets strict `>`, a DATE
column gets `>=`. -/
theorem incremental_filter_spec_witness :
    buildIncrementalFilter [⟨"ts", "TIMESTAMP"⟩] (some "ts") (some "2024-01-01") =
      "WHERE " ++ "ts" ++ " " ++ ">" ++ " '" ++ "2024-01-01" ++ "'" ∧
    buildIncrementalFilter [⟨"d", "DATE"⟩] (some "d") (some "2024-01-01") =
      "WHERE " ++ "d" ++ " " ++ ">=" ++ " '" ++ "2024-01-01" ++ "'" :=
  ⟨(incremental_filter_spec [⟨"ts", "TIMESTAMP"⟩] "ts" "2024-01-01" (by decide)
      ⟨"ts", "TIMESTAMP"⟩ (by decide)).1 rfl,
   (incremental_filter_spec [⟨"d", "DATE"⟩] "d" "2024-01-01" (by decide)
      ⟨"d", "DATE"⟩ (by decide)).2 (by decide)⟩

/-- Run State of the spreadsheet→warehouse handler as persisted under
`sheets_sync_state:{job}:{run}` (src/sync/sheets-to-bq-handler.ts,
`SheetsSyncState`; the `startTime` and `tableSchema` bookkeeping is carried
unchanged and elided here). -/
structure SheetsSyncState where
  lastProcessedRow : Nat
  totalRows : Nat
  headers : List String
  tableExists : Bool
deriving Repr, DecidableEq

/-- The load job handed to `BigQueryClient.loadFromJson` on a non-empty page:
its write disposition and whether an explicit schema accompanies it. -/
structure LoadSpec where
  writeDisposition : String
  schemaProvided : Bool
deriving Repr, DecidableEq

/-- The `SyncResult` of one spreadsheet→warehouse batch, together with
whether the terminal success summary was logged. -/
structure SheetsBatchResult where
  hasMore : Bool
  nextBatch : Nat
  rowsProcessed : Nat
  rowsDeleted : Nat
  load : Option LoadSpec
  summaryLogged : Bool
deriving Repr, DecidableEq

/-- The page size of the sheet fetch (`BATCH_SIZE`, src/sync/sheets-to-bq-handler.ts
line 186). -/
def SHEETS_BATCH_SIZE : Nat := 5000

/-- The common tail of `handleSheetsToBigQuerySync` once `startRow`, the
running `totalRows` and `tableExists` are resolved (src/sync/sheets-to-bq-handler.ts
lines 186-351): fetch `rowCount` rows, on a non-empty page pick the write
disposition (`WRITE_TRUNCATE` only on batch 1 of a non-append job) and supply
a schema only for a new table, then either rewrite the run state with the
advanced offset and totals (`hasMore`) or log the success summary and delete
the state. -/
def sheetsBatchCore (append : Option Bool) (batchNumber startRow totals : Nat)
    (headers : List String) (tExists : Bool) (rowCount : Nat) :
    SheetsBatchResult × Option SheetsSyncState :=
  let load : Option LoadSpec :=
    if 0 < rowCount then
      let shouldPreserveExistingData := append == some true
      let isFirstBatchOfNewSync := batchNumber == 1
      let shouldTruncate := isFirstBatchOfNewSync && !shouldPreserveExistingData
      let isNewTable := isFirstBatchOfNewSync && !tExists
      some { writeDisposition := if shouldTruncate then "WRITE_TRUNCATE" else "WRITE_APPEND"
             schemaProvided := isNewTable }
    else none
  let totalRows := totals + rowCount
  let hasMore := rowCount == SHEETS_BATCH_SIZE
  let nextStartRow := startRow + rowCount
  ({ hasMore := hasMore
     nextBatch := batchNumber + 1
     rowsProcessed := rowCount
     rowsDeleted := 0
     load := load
     summaryLogged := !hasMore },
   if hasMore then some ⟨nextStartRow - 1, totalRows, headers, tExists⟩ else none)

/-- Embedding of `handleSheetsToBigQuerySync` (src/sync/sheets-to-bq-handler.ts
lines 98-358) over one invocation: on batch 1 the headers are read and the
table probed (`startRow = 2`, fresh totals); on a later batch the run state is
loaded and its absence is the thrown `Sync state not found` error. The value
is the batch result paired with the run-state key's content after the batch
(`none` = deleted). -/
def handleSheetsToBigQuerySync (append : Option Bool) (batchNumber : Nat)
    (prior : Option SheetsSyncState) (headersRead : List String)
    (tableExistsProbe : Bool) (rowCount : Nat) :
    Except String (SheetsBatchResult × Option SheetsSyncState) :=
  if batchNumber == 1 then
    Except.ok (sheetsBatchCore append batchNumber 2 0 headersRead tableExistsProbe rowCount)
  else
    match prior with
    | none => Except.error "Sync state not found"
    | some st =>
        Except.ok (sheetsBatchCore append batchNumber (st.lastProcessedRow + 1)
          st.totalRows st.headers st.tableExists rowCount)

/-- The `startRow` a batch resolves: 2 on batch 1, one past the stored
`lastProcessedRow` afterwards. -/
def startRowOf (batchNumber : Nat) (prior : Option SheetsSyncState) : Nat :=
  if batchNumber == 1 then 2
  else match prior with
    | some st => st.lastProcessedRow + 1
    | none => 2

/-- The running total a batch starts from: 0 on batch 1, the stored
`totalRows` afterwards. -/
def totalsOf (batchNumber : Nat) (prior : Option SheetsSyncState) : Nat :=
  if batchNumber == 1 then 0
  else match prior with
    | some st => st.totalRows
    | none => 0


/-- What the common batch tail produces: `hasMore` mirrors a full page, the
stored state carries the advanced offset and totals exactly on a full page,
and the success summary is logged exactly on a short page. -/
theorem sheetsBatchCore_spec (append : Option Bool) (b startRow totals : Nat)
    (hdrs : List String) (tEx : Bool) (n : Nat) :
    ((sheetsBatchCore append b startRow totals hdrs tEx n).1.hasMore = true ↔ n = 5000) ∧
    ((sheetsBatchCore append b startRow totals hdrs tEx n).2 =
      if n = 5000 then some ⟨startRow + n - 1, totals + n, hdrs, tEx⟩ else none) ∧
    ((sheetsBatchCore append b startRow totals hdrs tEx n).1.summaryLogged =
      !(n == 5000)) := by
  by_cases hn : n = 5000
  · subst hn
    refine ⟨by simp [sheetsBatchCore, SHEETS_BATCH_SIZE], ?_, by rfl⟩
    simp [sheetsBatchCore, SHEETS_BATCH_SIZE]
  · have hb : (n == SHEETS_BATCH_SIZE) = false := by
      simpa [SHEETS_BATCH_SIZE] using hn
    refine ⟨?_, ?_, ?_⟩
    · simp [sheetsBatchCore, hb, hn]
    · simp [sheetsBatchCore, hb, hn]
    · simp [sheetsBatchCore, SHEETS_BATCH_SIZE, hb]

/-- C3. A spreadsheet→warehouse batch reports `hasMore = true` exactly when
the fetched page has 5000 rows; on such a non-terminal batch the run-state key
is rewritten with the advanced row offset and running totals, and on a
terminal batch the success summary is logged and the key is deleted — Run
State exists after the batch iff the run is mid-flight. -/
theorem sheets_run_state_spec (append : Option Bool) (b : Nat)
    (prior : Option SheetsSyncState) (hdrs : List String) (probe : Bool) (n : Nat)
    (res : SheetsBatchResult) (st2 : Option SheetsSyncState)
    (h : handleSheetsToBigQuerySync append b prior hdrs probe n = Except.ok (res, st2)) :
    (res.hasMore = true ↔ n = 5000) ∧
    ((∃ st, st2 = some st) ↔ res.hasMore = true) ∧
    (res.hasMore = false → st2 = none ∧ res.summaryLogged = true) ∧
    (res.hasMore = true → ∃ st, st2 = some st ∧
      st.lastProcessedRow + 1 = startRowOf b prior + n ∧
      st.totalRows = totalsOf b prior + n) := by
  by_cases hb : b = 1
  · subst hb
    have h2 : Except.ok (sheetsBatchCore append 1 2 0 hdrs probe n) =
        Except.ok (res, st2) := h
    have hpair := Except.ok.inj h2
    have hres : res = (sheetsBatchCore append 1 2 0 hdrs probe n).1 :=
      congrArg Prod.fst hpair.symm
    have hst : st2 = (sheetsBatchCore append 1 2 0 hdrs probe n).2 :=
      congrArg Prod.snd hpair.symm
    subst hres hst
    obtain ⟨c1, c2, c3⟩ := sheetsBatchCore_spec append 1 2 0 hdrs probe n
    have hstart : startRowOf 1 prior = 2 := by simp [startRowOf]
    have htot : totalsOf 1 prior = 0 := by simp [totalsOf]
    refine ⟨c1, ?_, ?_, ?_⟩
    · by_cases hn : n = 5000
      · rw [c2, if_pos hn]
        simp [c1.mpr hn]
      · rw [c2, if_neg hn]
        simp [c1, hn]
    · intro hfalse
      have hn : ¬n = 5000 := fun hh => by
        rw [c1.mpr hh] at hfalse
        exact absurd hfalse (by decide)
      have hnb : (n == 5000) = false := by simpa using hn
      rw [c2, if_neg hn, c3, hnb]
      exact ⟨rfl, rfl⟩
    · intro htrue
      have hn := c1.mp htrue
      refine ⟨⟨2 + n - 1, 0 + n, hdrs, probe⟩, by rw [c2, if_pos hn], ?_, ?_⟩
      · rw [hstart]
        show 2 + n - 1 + 1 = 2 + n
        omega
      · rw [htot]
  · have hb2 : (b == 1) = false := by simpa using hb
    rcases prior with _ | st
    · rw [handleSheetsToBigQuerySync, if_neg (by simp [hb2])] at h
      exact absurd h (by simp)
    · rw [handleSheetsToBigQuerySync, if_neg (by simp [hb2])] at h
      have h2 : Except.ok (sheetsBatchCore append b (st.lastProcessedRow + 1)
          st.totalRows st.headers st.tableExists n) = Except.ok (res, st2) := h
      have hpair := Except.ok.inj h2
      have hres : res = (sheetsBatchCore append b (st.lastProcessedRow + 1)
          st.totalRows st.headers st.tableExists n).1 := congrArg Prod.fst hpair.symm
      have hst : st2 = (sheetsBatchCore append b (st.lastProcessedRow + 1)
          st.totalRows st.headers st.tableExists n).2 := congrArg Prod.snd hpair.symm
      subst hres hst
      obtain ⟨c1, c2, c3⟩ := sheetsBatchCore_spec append b (st.lastProcessedRow + 1)
        st.totalRows st.headers st.tableExists n
      have hstart : startRowOf b (some st) = st.lastProcessedRow + 1 := by
        simp [startRowOf, hb2]
      have htot : totalsOf b (some st) = st.totalRows := by
        simp [totalsOf, hb2]
      refine ⟨c1, ?_, ?_, ?_⟩
      · by_cases hn : n = 5000
        · rw [c2, if_pos hn]
          simp [c1.mpr hn]
        · rw [c2, if_neg hn]
          simp [c1, hn]
      · intro hfalse
        have hn : ¬n = 5000 := fun hh => by
          rw [c1.mpr hh] at hfalse
          exact absurd hfalse (by decide)
        have hnb : (n == 5000) = false := by simpa using hn
        rw [c2, if_neg hn, c3, hnb]
        exact ⟨rfl, rfl⟩
      · intro htrue
        have hn := c1.mp htrue
        refine ⟨⟨st.lastProcessedRow + 1 + n - 1, st.totalRows + n, st.headers,
          st.tableExists⟩, by rw [c2, if_pos hn], ?_, ?_⟩
        · rw [hstart]
          show st.lastProcessedRow + 1 + n - 1 + 1 = st.lastProcessedRow + 1 + n
          omega
        · rw [htot]

/-- Concrete run of C3: batch 2 resuming from offset 5001 fetches a short page
of 3 rows, so the run-state key is deleted and the summary logged. -/
theorem sheets_run_state_spec_witness :
    ((sheetsBatchCore none 2 (5001 + 1) 5000 ["h"] true 3).1.hasMore = false →
      (sheetsBatchCore none 2 (5001 + 1) 5000 ["h"] true 3).2 = none ∧
      (sheetsBatchCore none 2 (5001 + 1) 5000 ["h"] true 3).1.summaryLogged = true) ∧
    (sheetsBatchCore none 2 (5001 + 1) 5000 ["h"] true 3).2 = none := by
  have h := sheets_run_state_spec none 2 (some ⟨5001, 5000, ["h"], true⟩) ["h"] true 3
    (sheetsBatchCore none 2 (5001 + 1) 5000 ["h"] true 3).1
    (sheetsBatchCore none 2 (5001 + 1) 5000 ["h"] true 3).2 rfl
  exact ⟨h.2.2.1, (h.2.2.1 (by rfl)).1⟩

/-- Load-mode selection of the common batch tail: append exactly when the
job's append flag is set or the batch is past the first, truncate only on
batch 1 of a non-append job, schema only for a batch-1 new table; no load at
all on an empty page. -/
theorem sheetsBatchCore_load_spec (append : Option Bool) (b startRow totals : Nat)
    (hdrs : List String) (tEx : Bool) (n : Nat) :
    (∀ ls, (sheetsBatchCore append b startRow totals hdrs tEx n).1.load = some ls →
      (ls.writeDisposition = "WRITE_APPEND" ↔ (append = some true ∨ ¬b = 1)) ∧
      (ls.writeDisposition = "WRITE_TRUNCATE" ↔ (b = 1 ∧ ¬append = some true)) ∧
      (ls.schemaProvided = true ↔ (b = 1 ∧ tEx = false))) ∧
    ((sheetsBatchCore append b startRow totals hdrs tEx n).1.load = none ↔ n = 0) := by
  by_cases hn : 0 < n
  · constructor
    · intro ls hls
      have hls2 : some (LoadSpec.mk
          (if (b == 1) && !(append == some true) then "WRITE_TRUNCATE" else "WRITE_APPEND")
          ((b == 1) && !tEx)) = some ls := by
        rw [← hls]
        show some _ = (if 0 < n then some _ else none)
        rw [if_pos hn]
      have hls3 := (Option.some.inj hls2).symm
      subst hls3
      by_cases hb1 : b = 1
      · subst hb1
        by_cases ha : append = some true
        · have ha2 : (append == some true) = true := by simpa using ha
          refine ⟨?_, ?_, ?_⟩
          · simp [ha2, ha]
          · simp [ha2, ha]
          · cases tEx <;> simp
        · have ha2 : (append == some true) = false := by simpa using ha
          refine ⟨?_, ?_, ?_⟩
          · simp [ha2, ha]
          · simp [ha2, ha]
          · cases tEx <;> simp
      · have hb2 : (b == 1) = false := by simpa using hb1
        refine ⟨?_, ?_, ?_⟩
        · simp [hb2, hb1]
        · simp [hb2, hb1]
        · simp [hb2, hb1]
    · have : (sheetsBatchCore append b startRow totals hdrs tEx n).1.load =
          some (LoadSpec.mk
            (if (b == 1) && !(append == some true) then "WRITE_TRUNCATE" else "WRITE_APPEND")
            ((b == 1) && !tEx)) := by
        show (if 0 < n then some _ else none) = some _
        rw [if_pos hn]
      rw [this]
      simp
      omega
  · have hn0 : n = 0 := by omega
    subst hn0
    constructor
    · intro ls hls
      exact absurd hls (by simp [sheetsBatchCore])
    · simp [sheetsBatchCore]

/-- C6. In a spreadsheet→warehouse batch with a non-empty page, the load mode
is append exactly when the job's append flag is true or the batch number is
past 1, truncate only on batch 1 of a non-append job; and the explicit schema
accompanies the load exactly when the destination table did not exist at the
batch-1 probe. -/
theorem sheets_load_mode_spec (append : Option Bool) (b : Nat)
    (prior : Option SheetsSyncState) (hdrs : List String) (probe : Bool) (n : Nat)
    (res : SheetsBatchResult) (st2 : Option SheetsSyncState)
    (h : handleSheetsToBigQuerySync append b prior hdrs probe n = Except.ok (res, st2)) :
    (∀ ls, res.load = some ls →
      (ls.writeDisposition = "WRITE_APPEND" ↔ (append = some true ∨ ¬b = 1)) ∧
      (ls.writeDisposition = "WRITE_TRUNCATE" ↔ (b = 1 ∧ ¬append = some true)) ∧
      (ls.schemaProvided = true → b = 1 ∧ probe = false)) ∧
    (res.load = none ↔ n = 0) := by
  by_cases hb : b = 1
  · subst hb
    have h2 : Except.ok (sheetsBatchCore append 1 2 0 hdrs probe n) =
        Except.ok (res, st2) := h
    have hres : res = (sheetsBatchCore append 1 2 0 hdrs probe n).1 :=
      congrArg Prod.fst (Except.ok.inj h2).symm
    subst hres
    obtain ⟨hload, hnone⟩ := sheetsBatchCore_load_spec append 1 2 0 hdrs probe n
    refine ⟨?_, hnone⟩
    intro ls hls
    obtain ⟨w1, w2, w3⟩ := hload ls hls
    exact ⟨w1, w2, fun hs => w3.mp hs⟩
  · have hb2 : (b == 1) = false := by simpa using hb
    rcases prior with _ | st
    · rw [handleSheetsToBigQuerySync, if_neg (by simp [hb2])] at h
      exact absurd h (by simp)
    · rw [handleSheetsToBigQuerySync, if_neg (by simp [hb2])] at h
      have h2 : Except.ok (sheetsBatchCore append b (st.lastProcessedRow + 1)
          st.totalRows st.headers st.tableExists n) = Except.ok (res, st2) := h
      have hres : res = (sheetsBatchCore append b (st.lastProcessedRow + 1)
          st.totalRows st.headers st.tableExists n).1 :=
        congrArg Prod.fst (Except.ok.inj h2).symm
      subst hres
      obtain ⟨hload, hnone⟩ := sheetsBatchCore_load_spec append b (st.lastProcessedRow + 1)
        st.totalRows st.headers st.tableExists n
      refine ⟨?_, hnone⟩
      intro ls hls
      obtain ⟨w1, w2, w3⟩ := hload ls hls
      exact ⟨w1, w2, fun hs => absurd (w3.mp hs).1 hb⟩

/-- Concrete run of C6: batch 1 of a non-append job against a table that does
not yet exist truncates and supplies a schema. -/
theorem sheets_load_mode_spec_witness :
    (∀ ls, (sheetsBatchCore (some false) 1 2 0 ["h"] false 7).1.load = some ls →
      (ls.writeDisposition = "WRITE_APPEND" ↔ (some false = some true ∨ ¬1 = 1)) ∧
      (ls.writeDisposition = "WRITE_TRUNCATE" ↔ (1 = 1 ∧ ¬some false = some true)) ∧
      (ls.schemaProvided = true → 1 = 1 ∧ false = false)) ∧
    ((sheetsBatchCore (some false) 1 2 0 ["h"] false 7).1.load = none ↔ 7 = 0) :=
  sheets_load_mode_spec (some false) 1 none ["h"] false 7
    (sheetsBatchCore (some false) 1 2 0 ["h"] false 7).1
    (sheetsBatchCore (some false) 1 2 0 ["h"] false 7).2 rfl

/-- Outcome of the end-of-run delete-detection sub-procedure: skipped by a
safety gate (0 deleted), failed with `DestructiveAnomaly`, or a delete of the
candidate keys. -/
inductive DeleteOutcome where
  | skipped
  | destructiveAnomaly
  | deleted (keys : List String)
deriving Repr, DecidableEq

/-- Modelled from the spec: the end-of-run delete-detection sub-procedure of
the warehouse→sink state machine. The multi-batch `handleSync` that performs
delete detection is not among the repository's source files — only its unit
tests (src/sync/handler.test.ts, `Delete Detection Logic`) and its callers
survive — so the procedure follows the spec's §4.4 steps over the canonical
key strings: gate A skips when the source returned zero rows; gate B skips
when the sink is empty; candidates are the sink keys absent from the source;
gate C fails with `DestructiveAnomaly` when `|candidates| > 0.5 · |sink_keys|`
(the unit tests' `deletesToMake > supabaseRowCount * 0.5`); otherwise the
candidates are deleted. -/
def deleteDetection (sourceKeys sinkKeys : List String) : DeleteOutcome :=
  if sourceKeys.length == 0 then DeleteOutcome.skipped
  else if sinkKeys.length == 0 then DeleteOutcome.skipped
  else
    let candidates := sinkKeys.filter fun k => !sourceKeys.contains k
    if sinkKeys.length < 2 * candidates.length then DeleteOutcome.destructiveAnomaly
    else DeleteOutcome.deleted candidates

/-- Modelled from the spec: the sink key set after the delete phase — only a
`deleted` outcome removes rows; gates and `DestructiveAnomaly` leave the sink
unchanged. -/
def sinkAfterDeleteDetection (sourceKeys sinkKeys : List String) : List String :=
  match deleteDetection sourceKeys sinkKeys with
  | DeleteOutcome.deleted cs => sinkKeys.filter fun k => !cs.contains k
  | _ => sinkKeys

/-- C2 counterexample: a sink of two keys against a source holding exactly one
of them — the source key count (1) is at most half the sink's (2), yet the
candidate set (`["k2"]`) does not EXCEED half of the sink keys, so gate C does
not trip: the run deletes a row and ends without `DestructiveAnomaly`. -/
theorem delete_gate_counterexample :
    2 ≤ (["k1", "k2"] : List String).length ∧
    2 * (["k1"] : List String).length ≤ (["k1", "k2"] : List String).length ∧
    deleteDetection ["k1"] ["k1", "k2"] = DeleteOutcome.deleted ["k2"] ∧
    sinkAfterDeleteDetection ["k1"] ["k1", "k2"] = ["k1"] := by
  decide

/-- The sink keys found in the source are no more numerous than the source
keys, once the sink keys are distinct. -/
theorem filter_contains_length_le (src sink : List String) (hnd : sink.Nodup) :
    (sink.filter fun k => src.contains k).length ≤ src.length := by
  have hndf : (sink.filter fun k => src.contains k).Nodup := hnd.filter _
  have hsub : (sink.filter fun k => src.contains k).toFinset ⊆ src.toFinset := by
    intro a ha
    rw [List.mem_toFinset, List.mem_filter] at ha
    rw [List.mem_toFinset]
    simpa using ha.2
  calc (sink.filter fun k => src.contains k).length
      = (sink.filter fun k => src.contains k).toFinset.card :=
        (List.toFinset_card_of_nodup hndf).symm
    _ ≤ src.toFinset.card := Finset.card_le_card hsub
    _ ≤ src.length := List.toFinset_card_le src

/-- C2 (amended). With a non-empty source key set (so that gate A does not
pre-empt gate C): whenever the sink keys absent from the source STRICTLY
exceed half of the distinct sink keys, the run fails with
`DestructiveAnomaly` and the sink is unchanged; in particular this happens
whenever the sink has at least 2 rows and the source key count is strictly
below half the sink's. At exactly half, or with an empty source, the run does
not fail with `DestructiveAnomaly`. -/
theorem delete_safety_gate_spec (sourceKeys sinkKeys : List String)
    (hsrc : sourceKeys ≠ []) (hnd : sinkKeys.Nodup) :
    (sinkKeys.length < 2 * (sinkKeys.filter fun k => !sourceKeys.contains k).length →
      deleteDetection sourceKeys sinkKeys = DeleteOutcome.destructiveAnomaly ∧
      sinkAfterDeleteDetection sourceKeys sinkKeys = sinkKeys) ∧
    (2 ≤ sinkKeys.length → 2 * sourceKeys.length < sinkKeys.length →
      deleteDetection sourceKeys sinkKeys = DeleteOutcome.destructiveAnomaly ∧
      sinkAfterDeleteDetection sourceKeys sinkKeys = sinkKeys) := by
  have hsrcb : (sourceKeys.length == 0) = false := by
    simp only [beq_eq_false_iff_ne, ne_eq, List.length_eq_zero]
    exact hsrc
  have main : sinkKeys.length < 2 * (sinkKeys.filter fun k => !sourceKeys.contains k).length →
      deleteDetection sourceKeys sinkKeys = DeleteOutcome.destructiveAnomaly ∧
      sinkAfterDeleteDetection sourceKeys sinkKeys = sinkKeys := by
    intro hlt
    have hsinkpos : 0 < sinkKeys.length := by
      have hle : (sinkKeys.filter fun k => !sourceKeys.contains k).length ≤
          sinkKeys.length := List.length_filter_le _ _
      omega
    have hsinkb : (sinkKeys.length == 0) = false := by
      simp only [beq_eq_false_iff_ne, ne_eq]
      omega
    have hdet : deleteDetection sourceKeys sinkKeys = DeleteOutcome.destructiveAnomaly := by
      simp only [deleteDetection, hsrcb, hsinkb, Bool.false_eq_true, if_false]
      rw [if_pos hlt]
    refine ⟨hdet, ?_⟩
    rw [sinkAfterDeleteDetection, hdet]
  refine ⟨main, fun _ hhalf => main ?_⟩
  have hsplit : sinkKeys.length =
      (sinkKeys.filter fun k => sourceKeys.contains k).length +
      (sinkKeys.filter fun k => !sourceKeys.contains k).length := by
    have := List.length_eq_length_filter_add (l := sinkKeys)
      (fun k => sourceKeys.contains k)
    simpa using this
  have hin := filter_contains_length_le sourceKeys sinkKeys hnd
  omega

/-- Concrete run of C2 (amended): one source key against three distinct sink
keys trips gate C and leaves the sink unchanged. -/
theorem delete_safety_gate_spec_witness :
    deleteDetection ["a"] ["b", "c", "d"] = DeleteOutcome.destructiveAnomaly ∧
    sinkAfterDeleteDetection ["a"] ["b", "c", "d"] = ["b", "c", "d"] :=
  (delete_safety_gate_spec ["a"] ["b", "c", "d"] (by decide) (by decide)).2
    (by decide) (by decide)
